import Mathlib

/-!
# Verification of the AAudio state-machine validation harness

Shallow embedding of the native sources of `android-audio-high-performance`
(`aaudio/statemachine-validation/src/main/cpp/audio_main.cpp`,
`validate_outstream.cpp`) and proofs about them.

The subject under test is the external AAudio NDK library; the harness only
calls it.  The embedding therefore abstracts a stream as a behaviour: a state
type `σ` together with one Lean function per AAudio entry point the harness
calls.  Queries that the harness treats as point-in-time snapshots
(`getState` in the tuner, `getFramesPerBurst`, buffer-size/capacity and XRun
queries) are pure reads of `σ`; calls that the sources rely on for making the
stream progress (`requestStart`/`Pause`/`Flush`/`Stop`, `close`,
`waitForStateChange`, `write`, `setBufferSizeInFrames`, and the validator's
`getState`) are state transformers returning the C result value and the next
behaviour state.  C `int32_t`/`int64_t` values are modelled as `Int`;
no arithmetic in the modelled code comes near the 32-bit range on the inputs
the claims speak about.
-/

namespace AAudioValidation

/-! ## AAudio NDK constants

Numeric values of the external header `aaudio/AAudio.h` (NDK, 2017 era) that
the sources depend on: the code computes `stateMachine[idx].state - 1` and
compares results against `AAUDIO_OK`, so the enum numbering is part of the
embedded semantics.  `aaudio_stream_state_t` enumerates, in order:
UNINITIALIZED = 0, UNKNOWN, OPEN, STARTING, STARTED, PAUSING, PAUSED,
FLUSHING, FLUSHED, STOPPING, STOPPED, CLOSING, CLOSED.  `aaudio_result_t`
has `AAUDIO_OK = 0` and negative error codes, among them
`AAUDIO_ERROR_TIMEOUT = -885`. -/

def AAUDIO_OK : Int := 0

def AAUDIO_ERROR_TIMEOUT : Int := -885

def AAUDIO_STREAM_STATE_UNINITIALIZED : Int := 0

def AAUDIO_STREAM_STATE_UNKNOWN : Int := 1

def AAUDIO_STREAM_STATE_OPEN : Int := 2

def AAUDIO_STREAM_STATE_STARTING : Int := 3

def AAUDIO_STREAM_STATE_STARTED : Int := 4

def AAUDIO_STREAM_STATE_PAUSING : Int := 5

def AAUDIO_STREAM_STATE_PAUSED : Int := 6

def AAUDIO_STREAM_STATE_FLUSHING : Int := 7

def AAUDIO_STREAM_STATE_FLUSHED : Int := 8

def AAUDIO_STREAM_STATE_STOPPING : Int := 9

def AAUDIO_STREAM_STATE_STOPPED : Int := 10

def AAUDIO_STREAM_STATE_CLOSING : Int := 11

def AAUDIO_STREAM_STATE_CLOSED : Int := 12

/-! ## Buffer-size tuner (`audio_main.cpp`, `TunePlayerForLowLatency`) -/

/-- The AAudio entry points `TunePlayerForLowLatency` (audio_main.cpp:155-216)
calls, abstracted over a behaviour state `σ`.  Getters are point-in-time
snapshots (pure reads); `setBufferSizeInFrames` and `write` return the
`aaudio_result_t` and the next behaviour state.  `write` takes the frame
count and the timeout in nanoseconds (the silence buffer's contents are
irrelevant to the control flow and are not modelled). -/
structure StreamOps (σ : Type) where
  getState : σ → Int
  getFramesPerBurst : σ → Int
  getBufferSizeInFrames : σ → Int
  getBufferCapacityInFrames : σ → Int
  getXRunCount : σ → Int
  setBufferSizeInFrames : σ → Int → Int × σ
  write : σ → Int → Int → Int × σ

/-- Exit site of the `while (bufSize <= bufCap)` loop of
`TunePlayerForLowLatency` (audio_main.cpp:175-206).  Each constructor is one
exit of the C loop:
* `setFailed`  — `AAudioStream_setBufferSizeInFrames` returned `<= AAUDIO_OK`
  (line 177: `break` with `trainingError = true`);
* `sizeStuck`  — the re-read buffer size equals the previous round's size
  (line 186: AAudio refuses to go up, `break`);
* `writeFailed` — `AAudioStream_write` returned a negative result
  (line 194: `break` with `trainingError = true`);
* `noNewXRun`  — the underrun count did not increase (line 200: `break`);
* `capReached` — the loop condition `bufSize <= bufCap` failed. -/
inductive TuneExit
  | setFailed
  | sizeStuck
  | writeFailed
  | noNewXRun
  | capReached
deriving DecidableEq, Repr

/-- The `trainingError` flag of `TunePlayerForLowLatency` as a function of the
loop's exit site: the C code sets it exactly at the `setFailed` and
`writeFailed` breaks (audio_main.cpp:178, 196). -/
def tuneTrainingError : TuneExit → Bool
  | .setFailed => true
  | .writeFailed => true
  | _ => false

/-- The `while (bufSize <= bufCap)` loop of `TunePlayerForLowLatency`
(audio_main.cpp:175-206), with a fuel bound (`none` = the loop did not finish
within `fuel` iterations; the C loop has no intrinsic bound when the
behaviour keeps reporting fresh sizes and more underruns below capacity).
Arguments after the fuel: `bufSize`, `prevBufSize`, `prevXRun`, stream
behaviour state.  Per iteration, exactly as the source: set the requested
size (failure is `result <= AAUDIO_OK`); re-read the effective size and stop
if unchanged from the previous round; write `bufCap` frames of silence with a
1'000'000'000 ns timeout (negative result is fatal); compare the underrun
count with the previous round and stop if it did not increase; otherwise
advance by one burst. -/
def tuneLoop {σ : Type} (ops : StreamOps σ) (bufCap framesPerBurst : Int) :
    Nat → Int → Int → Int → σ → Option (TuneExit × σ)
  | 0, _, _, _, _ => none
  | Nat.succ fuel, bufSize, prevBufSize, prevXRun, s =>
    if bufSize ≤ bufCap then
      let r := ops.setBufferSizeInFrames s bufSize
      if r.1 ≤ AAUDIO_OK then some (.setFailed, r.2)
      else
        let bufSize2 := ops.getBufferSizeInFrames r.2
        if bufSize2 = prevBufSize then some (.sizeStuck, r.2)
        else
          let w := ops.write r.2 bufCap 1000000000
          if w.1 < 0 then some (.writeFailed, w.2)
          else
            let curXRun := ops.getXRunCount w.2
            if curXRun ≤ prevXRun then some (.noNewXRun, w.2)
            else
              tuneLoop ops bufCap framesPerBurst fuel
                (bufSize2 + framesPerBurst) bufSize2 curXRun w.2
    else some (.capReached, s)

/-- `TunePlayerForLowLatency` (audio_main.cpp:155-216).  Returns `none` when
the tuning loop does not finish within `fuel` rounds, otherwise
`some (returnValue, finalBehaviourState)`.  Exactly as the source: fail fast
(without touching the stream) when the stream is not in the STARTED state;
read `framesPerBurst`, the original size `orgSize`, the capacity and the
initial underrun count; run the loop starting at one burst with
`prevBufSize = 0`; on a training error restore `orgSize` (ignoring the
restore call's result) and return `false`, otherwise return `true` leaving
the stream as the loop left it. -/
def TunePlayerForLowLatency {σ : Type} (ops : StreamOps σ) (fuel : Nat) (s : σ) :
    Option (Bool × σ) :=
  if ops.getState s ≠ AAUDIO_STREAM_STATE_STARTED then some (false, s)
  else
    let framesPerBurst := ops.getFramesPerBurst s
    let orgSize := ops.getBufferSizeInFrames s
    let bufCap := ops.getBufferCapacityInFrames s
    let prevXRun := ops.getXRunCount s
    match tuneLoop ops bufCap framesPerBurst fuel framesPerBurst 0 prevXRun s with
    | none => none
    | some (ex, t) =>
      if tuneTrainingError ex then some (false, (ops.setBufferSizeInFrames t orgSize).2)
      else some (true, t)

/-- Mock stream behaviour state for the tuner: the current effective buffer
size and the underrun counter. -/
structure TunerMock where
  bufSize : Int
  xrun : Int
deriving DecidableEq, Repr

/-- The concrete tuner scenario of the specification: frames per burst 64,
buffer capacity 640, the stream is STARTED, `setBufferSizeInFrames` succeeds
and makes the effective size equal the requested size, and each write bumps
the underrun counter exactly while the effective size is below 256. -/
def tunerScenarioOps : StreamOps TunerMock where
  getState _ := AAUDIO_STREAM_STATE_STARTED
  getFramesPerBurst _ := 64
  getBufferSizeInFrames s := s.bufSize
  getBufferCapacityInFrames _ := 640
  getXRunCount s := s.xrun
  setBufferSizeInFrames s n := (n, { s with bufSize := n })
  write s _ _ := (0, if s.bufSize < 256 then { s with xrun := s.xrun + 1 } else s)

/-- A tuner mock whose `setBufferSizeInFrames` always reports failure (result
`-1`) while still recording the requested size, so that re-reading the size
after a set returns the requested value. -/
def tunerSetFailOps : StreamOps TunerMock where
  getState _ := AAUDIO_STREAM_STATE_STARTED
  getFramesPerBurst _ := 64
  getBufferSizeInFrames s := s.bufSize
  getBufferCapacityInFrames _ := 640
  getXRunCount s := s.xrun
  setBufferSizeInFrames s n := (-1, { s with bufSize := n })
  write s _ _ := (0, s)

/-! ## State-sequence validator (`validate_outstream.cpp`) -/

/-- `#define WAITING_TIME_IN_SECOND 10` (validate_outstream.cpp:10). -/
def WAITING_TIME_IN_SECOND : Int := 10

/-- `#define WAITING_TIME_IN_MS 0` (validate_outstream.cpp:11). -/
def WAITING_TIME_IN_MS : Int := 0

/-- The timeout passed to every `AAudioStream_waitForStateChange` call of the
two retry loops, written inline in the source as
`(int64_t)(WAITING_TIME_IN_MS + WAITING_TIME_IN_SECOND * 1000000) * 1000`
(validate_outstream.cpp:104, 274). -/
def waitTimeoutNanos : Int := (WAITING_TIME_IN_MS + WAITING_TIME_IN_SECOND * 1000000) * 1000

/-- The five stream-control actions appearing in the validation table
(`&AAudioStream_requestStart` …, validate_outstream.cpp:39-47). -/
inductive StreamAction
  | start
  | pause
  | flush
  | stop
  | close
deriving DecidableEq, Repr

/-- The AAudio entry points `ValidateStreamStateMachine` / `CheckState` /
`ValidateStreamStateMachine2` call, abstracted over a behaviour state `σ`.
Every call returns its C result and the next behaviour state; the stream may
progress between calls asynchronously, which the behaviour state models by
letting even `getState` advance it.  `waitForStateChange` takes the
`inputState` to wait away from and the timeout in nanoseconds and returns
`((status, nextState), σ)` — `nextState` is the value stored through the C
out-parameter. -/
structure ValStreamOps (σ : Type) where
  getState : σ → Int × σ
  waitForStateChange : σ → Int → Int → (Int × Int) × σ
  requestStart : σ → Int × σ
  requestPause : σ → Int × σ
  requestFlush : σ → Int × σ
  requestStop : σ → Int × σ
  close : σ → Int × σ

/-- Dispatch a table action to the corresponding AAudio call. -/
def runAction {σ : Type} (ops : ValStreamOps σ) : StreamAction → σ → Int × σ
  | .start, s => ops.requestStart s
  | .pause, s => ops.requestPause s
  | .flush, s => ops.requestFlush s
  | .stop, s => ops.requestStop s
  | .close, s => ops.close s

/-- Which of the validator's two retry loops issued a wait: the
leave-previous-state loop of `ValidateStreamStateMachine`
(validate_outstream.cpp:99-107) or the loop inside `CheckState`
(validate_outstream.cpp:269-276). -/
inductive WaitPhase
  | leavePrev
  | checkState
deriving DecidableEq, Repr

/-- Observable calls the validator makes on the stream, recorded as a trace so
that theorems can speak about which queries and waits each step performed. -/
inductive StreamEvent
  | actionCall (a : StreamAction) (status : Int)
  | getStateCall (state : Int)
  | waitCall (phase : WaitPhase) (fromState : Int) (timeoutNanos : Int)
      (status : Int) (nextState : Int)
  | sleepCall (sec : Int) (nsec : Int)
deriving DecidableEq, Repr

/-- The timeout of a wait event (`none` for the other events). -/
def StreamEvent.waitTimeout : StreamEvent → Option Int
  | .waitCall _ _ timeout _ _ => some timeout
  | _ => none

/-- The `inputState` argument of a leave-previous-state wait event (`none`
for the other events, including `checkState`-phase waits). -/
def StreamEvent.leaveWaitFrom : StreamEvent → Option Int
  | .waitCall .leavePrev fromState _ _ _ => some fromState
  | _ => none

/-- Whether an event is a table-action invocation. -/
def StreamEvent.isAction : StreamEvent → Bool
  | .actionCall _ _ => true
  | _ => false

/-- One row of the validation table, `struct ValidationStateInfo`
(validate_outstream.cpp:30-34) without the mutable `result` field, which the
embedding returns instead of updating in place. -/
structure ValidationStateInfo where
  action : Option StreamAction
  state : Int
deriving DecidableEq, Repr

/-- The validation table `stateMachine[]` (validate_outstream.cpp:39-47). -/
def stateMachine : List ValidationStateInfo :=
  [ ⟨none, AAUDIO_STREAM_STATE_OPEN⟩,
    ⟨some .start, AAUDIO_STREAM_STATE_STARTED⟩,
    ⟨some .pause, AAUDIO_STREAM_STATE_PAUSED⟩,
    ⟨some .flush, AAUDIO_STREAM_STATE_FLUSHED⟩,
    ⟨some .start, AAUDIO_STREAM_STATE_STARTED⟩,
    ⟨some .stop, AAUDIO_STREAM_STATE_STOPPED⟩,
    ⟨some .close, AAUDIO_STREAM_STATE_CLOSED⟩ ]

/-- The shared `do { status = AAudioStream_waitForStateChange(...); } while
((status == AAUDIO_OK || status == AAUDIO_ERROR_TIMEOUT) && nextState ==
AAUDIO_STREAM_STATE_UNINITIALIZED)` retry loop (validate_outstream.cpp:99-106
and 269-276).  Both occurrences pass a `fromState` that is fixed over the
iterations and the timeout `waitTimeoutNanos`.  Fuel bounds the retries
(`none` = the loop kept retrying past the fuel); on exit the final
`(status, nextState)`, the behaviour state and the trace of issued waits are
returned.  The `phase` argument only tags the emitted events. -/
def waitLoop {σ : Type} (ops : ValStreamOps σ) (phase : WaitPhase) (fromState : Int) :
    Nat → σ → Option (Int × Int × σ × List StreamEvent)
  | 0, _ => none
  | Nat.succ fuel, s =>
    let r := ops.waitForStateChange s fromState waitTimeoutNanos
    let status := r.1.1
    let nextState := r.1.2
    let ev := StreamEvent.waitCall phase fromState waitTimeoutNanos status nextState
    if (status = AAUDIO_OK ∨ status = AAUDIO_ERROR_TIMEOUT) ∧
        nextState = AAUDIO_STREAM_STATE_UNINITIALIZED then
      match waitLoop ops phase fromState fuel r.2 with
      | none => none
      | some (st, ns, t, evs) => some (st, ns, t, ev :: evs)
    else some (status, nextState, r.2, [ev])

/-- `CheckState` (validate_outstream.cpp:231-280).  Returns the boolean the C
function returns, the behaviour state after all calls, and the trace: sample
the current state and pass immediately on a match; fail on the UNKNOWN
target; for the UNINITIALIZED/OPEN targets `nanosleep(WAITING_TIME_IN_SECOND
seconds, WAITING_TIME_IN_MS * 1000 nanoseconds)` and re-sample; for the other
stable targets run the retry wait loop away from the sampled state, then
re-sample and compare.  (The debug `assert(IS_STABLE_STATE(state))` is not
modelled; every state in the validation table is stable.) -/
def CheckState {σ : Type} (ops : ValStreamOps σ) (fuel : Nat) (state : Int) (s : σ) :
    Option (Bool × σ × List StreamEvent) :=
  let g := ops.getState s
  let curState := g.1
  let ev0 := StreamEvent.getStateCall curState
  if state = curState then some (true, g.2, [ev0])
  else if state = AAUDIO_STREAM_STATE_UNKNOWN then some (false, g.2, [ev0])
  else if state = AAUDIO_STREAM_STATE_UNINITIALIZED ∨ state = AAUDIO_STREAM_STATE_OPEN then
    let ev1 := StreamEvent.sleepCall WAITING_TIME_IN_SECOND (WAITING_TIME_IN_MS * 1000)
    let g2 := ops.getState g.2
    some (decide (g2.1 = state), g2.2, [ev0, ev1, StreamEvent.getStateCall g2.1])
  else
    match waitLoop ops WaitPhase.checkState curState fuel g.2 with
    | none => none
    | some (_, _, t, evs) =>
      let g2 := ops.getState t
      some (decide (g2.1 = state), g2.2, ev0 :: evs ++ [StreamEvent.getStateCall g2.1])

/-- The action part of one loop iteration of `ValidateStreamStateMachine`
(validate_outstream.cpp:79-87): invoke the row's action when present.  The
returned status is recorded in the trace but nothing else depends on it — the
C code only logs it. -/
def stepAction {σ : Type} (ops : ValStreamOps σ) :
    Option StreamAction → σ → List StreamEvent × σ
  | some act, s =>
    let r := runAction ops act s
    ([StreamEvent.actionCall act r.1], r.2)
  | none, s => ([], s)

/-- The body of the `for (int32_t idx = 0; ...)` loop of
`ValidateStreamStateMachine` (validate_outstream.cpp:75-114) for one table
row: invoke the row's action if present (its status is only logged, never
branched on); for the CLOSED row record `true` and `continue` without any
query or wait; otherwise, when `idx` is nonzero, run the leave-previous-state
retry loop with `inputState = stateMachine[idx].state - 1`; finally record
`CheckState(stateMachine[idx].state)`. -/
def runStep {σ : Type} (ops : ValStreamOps σ) (fuel : Nat) (idx : Nat)
    (info : ValidationStateInfo) (s : σ) : Option (Bool × σ × List StreamEvent) :=
  let acted : List StreamEvent × σ := stepAction ops info.action s
  if info.state = AAUDIO_STREAM_STATE_CLOSED then
    some (true, acted.2, acted.1)
  else
    let leave : Option (σ × List StreamEvent) :=
      if idx = 0 then some (acted.2, [])
      else
        match waitLoop ops WaitPhase.leavePrev (info.state - 1) fuel acted.2 with
        | none => none
        | some (_, _, t, evs) => some (t, evs)
    match leave with
    | none => none
    | some (s2, evs1) =>
      match CheckState ops fuel info.state s2 with
      | none => none
      | some (res, s3, evs2) => some (res, s3, acted.1 ++ evs1 ++ evs2)

/-- Fold `runStep` over the remaining table rows, collecting the per-row
results and per-row traces; `idx` is the index of the first remaining row. -/
def runSteps {σ : Type} (ops : ValStreamOps σ) (fuel : Nat) :
    Nat → List ValidationStateInfo → σ → Option (List Bool × σ × List (List StreamEvent))
  | _, [], s => some ([], s, [])
  | idx, info :: rest, s =>
    match runStep ops fuel idx info s with
    | none => none
    | some (res, s1, evs) =>
      match runSteps ops fuel (idx + 1) rest s1 with
      | none => none
      | some (results, s2, traces) => some (res :: results, s2, evs :: traces)

/-- `ValidateStreamStateMachine` (validate_outstream.cpp:63-135).  The created
stream is the behaviour's initial state `s` (`StreamBuilder::CreateStream`
and `PrintAudioStreamInfo` are external); the function walks the table and
then folds the recorded per-row results with `passed = passed && result`
(validate_outstream.cpp:120-125).  Returns
`some (passed, results, finalState, traces)`, or `none` when a retry loop
exceeded the fuel. -/
def ValidateStreamStateMachine {σ : Type} (ops : ValStreamOps σ) (fuel : Nat) (s : σ) :
    Option (Bool × List Bool × σ × List (List StreamEvent)) :=
  match runSteps ops fuel 0 stateMachine s with
  | none => none
  | some (results, s1, traces) =>
    some (results.foldl (fun p r => p && r) true, results, s1, traces)

/-- `#define NANOS_PER_SECOND (uint64_t)(1000000 * 1000)`
(validate_outstream.cpp:153). -/
def NANOS_PER_SECOND : Int := 1000000 * 1000

/-- `ValidateStreamStateMachine2` (validate_outstream.cpp:138-226): a scripted
output-stream session.  Request start, pause, flush, start again, waiting for
the corresponding transient state to be left after each request; every
failing status jumps to `finish:` — except the second `requestStart`, whose
failure is only logged — and `finish:` closes the stream.  The function's
only `return` statement is `return true`. -/
def ValidateStreamStateMachine2 {σ : Type} (ops : ValStreamOps σ) (s : σ) : Bool × σ :=
  let finish : σ → Bool × σ := fun t => (true, (ops.close t).2)
  let r1 := ops.requestStart s
  if r1.1 ≠ AAUDIO_OK then finish r1.2 else
  let w1 := ops.waitForStateChange r1.2 AAUDIO_STREAM_STATE_STARTING NANOS_PER_SECOND
  if w1.1.1 ≠ AAUDIO_OK then finish w1.2 else
  let r2 := ops.requestPause w1.2
  if r2.1 ≠ AAUDIO_OK then finish r2.2 else
  let w2 := ops.waitForStateChange r2.2 AAUDIO_STREAM_STATE_PAUSING NANOS_PER_SECOND
  if w2.1.1 ≠ AAUDIO_OK then finish w2.2 else
  let r3 := ops.requestFlush w2.2
  if r3.1 ≠ AAUDIO_OK then finish r3.2 else
  let w3 := ops.waitForStateChange r3.2 AAUDIO_STREAM_STATE_FLUSHING NANOS_PER_SECOND
  if w3.1.1 ≠ AAUDIO_OK then finish w3.2 else
  let r4 := ops.requestStart w3.2
  let w4 := ops.waitForStateChange r4.2 AAUDIO_STREAM_STATE_STARTING (5 * NANOS_PER_SECOND)
  if w4.1.1 ≠ AAUDIO_OK then finish w4.2 else
  finish w4.2

/-! ## JNI entry points (`audio_main.cpp`) -/

/-- The fields of `struct AAudioEngine` (audio_main.cpp:27-37) that the start
entry point reads or writes. -/
structure AAudioEngine where
  validationInProgress : Bool
deriving DecidableEq, Repr

/-- `Java_com_google_validation_aaudio_statemachine_MainActivity_start`
(audio_main.cpp:108-119).  Returns the `jboolean` result, the engine state
afterwards, and whether a detached worker thread was launched (the
`std::thread t(PlayAudioThreadProc, &engine); t.detach()` pair, modelled as a
flag since the thread body is outside this entry point). -/
def MainActivity_start (e : AAudioEngine) : Bool × AAudioEngine × Bool :=
  if e.validationInProgress then (false, e, false)
  else (true, { e with validationInProgress := true }, true)

/-! ## Mock behaviours used as concrete witnesses -/

/-- A well-behaved mock stream: its behaviour state is the current
`aaudio_stream_state_t`.  Every request succeeds and moves the stream
directly to the requested stable state; `waitForStateChange` returns
`AAUDIO_OK` with the current state as `nextState`; `getState` reports the
current state. -/
def perfectMock : ValStreamOps Int where
  getState s := (s, s)
  waitForStateChange s _ _ := ((AAUDIO_OK, s), s)
  requestStart _ := (AAUDIO_OK, AAUDIO_STREAM_STATE_STARTED)
  requestPause _ := (AAUDIO_OK, AAUDIO_STREAM_STATE_PAUSED)
  requestFlush _ := (AAUDIO_OK, AAUDIO_STREAM_STATE_FLUSHED)
  requestStop _ := (AAUDIO_OK, AAUDIO_STREAM_STATE_STOPPED)
  close _ := (AAUDIO_OK, AAUDIO_STREAM_STATE_CLOSED)

/-- `perfectMock`, except every table action reports the failure status `-1`
while moving the stream exactly as `perfectMock` does.  Used to witness that
action failures do not change which steps run or what they record. -/
def failingActionsMock : ValStreamOps Int where
  getState s := (s, s)
  waitForStateChange s _ _ := ((AAUDIO_OK, s), s)
  requestStart _ := (-1, AAUDIO_STREAM_STATE_STARTED)
  requestPause _ := (-1, AAUDIO_STREAM_STATE_PAUSED)
  requestFlush _ := (-1, AAUDIO_STREAM_STATE_FLUSHED)
  requestStop _ := (-1, AAUDIO_STREAM_STATE_STOPPED)
  close _ := (-1, AAUDIO_STREAM_STATE_CLOSED)

/-- The per-step traces of a full `ValidateStreamStateMachine` run against
`perfectMock` from the OPEN state with fuel 3 (used by concrete witnesses):
each step performs its action, one leave-previous-state wait from the
current target's transient precursor, and one state sample — except the
first step (no action, no wait) and the terminal CLOSED step (action only). -/
def perfectTraces : List (List StreamEvent) :=
  [ [ .getStateCall 2 ],
    [ .actionCall .start 0, .waitCall .leavePrev 3 10000000000 0 4, .getStateCall 4 ],
    [ .actionCall .pause 0, .waitCall .leavePrev 5 10000000000 0 6, .getStateCall 6 ],
    [ .actionCall .flush 0, .waitCall .leavePrev 7 10000000000 0 8, .getStateCall 8 ],
    [ .actionCall .start 0, .waitCall .leavePrev 3 10000000000 0 4, .getStateCall 4 ],
    [ .actionCall .stop 0, .waitCall .leavePrev 9 10000000000 0 10, .getStateCall 10 ],
    [ .actionCall .close 0 ] ]

/-- Two behaviours agree on everything except the statuses their
control actions return: same `getState`, same `waitForStateChange`, and each
action moves the behaviour state identically (only the returned
`aaudio_result_t` may differ). -/
def actionsAgreeOnState {σ : Type} (A B : ValStreamOps σ) : Prop :=
  A.getState = B.getState ∧
  A.waitForStateChange = B.waitForStateChange ∧
  ∀ a : StreamAction, ∀ s : σ, (runAction A a s).2 = (runAction B a s).2

/-! ## Theorems: buffer-size tuner -/

/-- C1: In the concrete tuner scenario — frames per burst 64, buffer capacity
640, initial underrun count 0, every set honoured with effective size equal to
the requested size, and the mock bumping the underrun count after each write
exactly while the effective size is below 256 — `TunePlayerForLowLatency`
terminates with the buffer size set to exactly 256 and returns `true`. -/
theorem tuner_concrete_scenario :
    TunePlayerForLowLatency tunerScenarioOps 32 { bufSize := 0, xrun := 0 } =
      some (true, { bufSize := 256, xrun := 3 }) := by decide

/-- C2: Whenever `TunePlayerForLowLatency` terminates, it returns `false` in
exactly three cases: the stream was not STARTED on entry (then the behaviour
state is returned untouched), the tuning loop exited at a failed
set-buffer-size call, or it exited at a negative write result; in the latter
two cases the buffer size is restored to its value on entry (assuming the
stream honours set requests, `hset`). -/
theorem tuner_failure_cases {σ : Type} (ops : StreamOps σ)
    (hset : ∀ (u : σ) (n : Int), ops.getBufferSizeInFrames (ops.setBufferSizeInFrames u n).2 = n)
    (fuel : Nat) (s : σ) (r : Bool) (t : σ)
    (h : TunePlayerForLowLatency ops fuel s = some (r, t)) :
    (r = false ↔
      ops.getState s ≠ AAUDIO_STREAM_STATE_STARTED ∨
      (∃ u, tuneLoop ops (ops.getBufferCapacityInFrames s) (ops.getFramesPerBurst s) fuel
          (ops.getFramesPerBurst s) 0 (ops.getXRunCount s) s = some (TuneExit.setFailed, u)) ∨
      (∃ u, tuneLoop ops (ops.getBufferCapacityInFrames s) (ops.getFramesPerBurst s) fuel
          (ops.getFramesPerBurst s) 0 (ops.getXRunCount s) s = some (TuneExit.writeFailed, u))) ∧
    (ops.getState s ≠ AAUDIO_STREAM_STATE_STARTED → t = s) ∧
    (r = false → ops.getState s = AAUDIO_STREAM_STATE_STARTED →
      ops.getBufferSizeInFrames t = ops.getBufferSizeInFrames s) := by
  by_cases hst : ops.getState s = AAUDIO_STREAM_STATE_STARTED
  · simp [TunePlayerForLowLatency, hst] at h
    cases hl : tuneLoop ops (ops.getBufferCapacityInFrames s) (ops.getFramesPerBurst s) fuel
        (ops.getFramesPerBurst s) 0 (ops.getXRunCount s) s with
    | none => rw [hl] at h; simp at h
    | some p =>
      obtain ⟨ex, u⟩ := p
      rw [hl] at h
      cases ex with
      | setFailed =>
        simp [tuneTrainingError] at h
        obtain ⟨hr, ht⟩ := h
        subst hr; subst ht
        exact ⟨⟨fun _ => Or.inr (Or.inl ⟨u, rfl⟩), fun _ => rfl⟩, fun hns => absurd hst hns,
          fun _ _ => hset u (ops.getBufferSizeInFrames s)⟩
      | sizeStuck =>
        simp [tuneTrainingError] at h
        obtain ⟨hr, ht⟩ := h
        subst hr; subst ht
        refine ⟨⟨fun hfalse => by simp at hfalse, ?_⟩, fun hns => absurd hst hns,
          fun hfalse _ => by simp at hfalse⟩
        rintro (hns | ⟨u2, hu⟩ | ⟨u2, hu⟩)
        · exact absurd hst hns
        · simp at hu
        · simp at hu
      | writeFailed =>
        simp [tuneTrainingError] at h
        obtain ⟨hr, ht⟩ := h
        subst hr; subst ht
        exact ⟨⟨fun _ => Or.inr (Or.inr ⟨u, rfl⟩), fun _ => rfl⟩, fun hns => absurd hst hns,
          fun _ _ => hset u (ops.getBufferSizeInFrames s)⟩
      | noNewXRun =>
        simp [tuneTrainingError] at h
        obtain ⟨hr, ht⟩ := h
        subst hr; subst ht
        refine ⟨⟨fun hfalse => by simp at hfalse, ?_⟩, fun hns => absurd hst hns,
          fun hfalse _ => by simp at hfalse⟩
        rintro (hns | ⟨u2, hu⟩ | ⟨u2, hu⟩)
        · exact absurd hst hns
        · simp at hu
        · simp at hu
      | capReached =>
        simp [tuneTrainingError] at h
        obtain ⟨hr, ht⟩ := h
        subst hr; subst ht
        refine ⟨⟨fun hfalse => by simp at hfalse, ?_⟩, fun hns => absurd hst hns,
          fun hfalse _ => by simp at hfalse⟩
        rintro (hns | ⟨u2, hu⟩ | ⟨u2, hu⟩)
        · exact absurd hst hns
        · simp at hu
        · simp at hu
  · simp [TunePlayerForLowLatency, hst] at h
    obtain ⟨hr, ht⟩ := h
    subst hr; subst ht
    exact ⟨⟨fun _ => Or.inl hst, fun _ => rfl⟩, fun _ => rfl, fun _ hs => absurd hs hst⟩

/-- Witness for C2 at a concrete behaviour whose set-buffer-size call fails:
the tuner returns `false` and the restore call brings the size back to 100. -/
theorem tuner_failure_cases_witness :
    ((false : Bool) = false ↔
      tunerSetFailOps.getState { bufSize := 100, xrun := 0 } ≠ AAUDIO_STREAM_STATE_STARTED ∨
      (∃ u, tuneLoop tunerSetFailOps
          (tunerSetFailOps.getBufferCapacityInFrames { bufSize := 100, xrun := 0 })
          (tunerSetFailOps.getFramesPerBurst { bufSize := 100, xrun := 0 }) 5
          (tunerSetFailOps.getFramesPerBurst { bufSize := 100, xrun := 0 }) 0
          (tunerSetFailOps.getXRunCount { bufSize := 100, xrun := 0 })
          { bufSize := 100, xrun := 0 } = some (TuneExit.setFailed, u)) ∨
      (∃ u, tuneLoop tunerSetFailOps
          (tunerSetFailOps.getBufferCapacityInFrames { bufSize := 100, xrun := 0 })
          (tunerSetFailOps.getFramesPerBurst { bufSize := 100, xrun := 0 }) 5
          (tunerSetFailOps.getFramesPerBurst { bufSize := 100, xrun := 0 }) 0
          (tunerSetFailOps.getXRunCount { bufSize := 100, xrun := 0 })
          { bufSize := 100, xrun := 0 } = some (TuneExit.writeFailed, u))) ∧
    (tunerSetFailOps.getState { bufSize := 100, xrun := 0 } ≠ AAUDIO_STREAM_STATE_STARTED →
      ({ bufSize := 100, xrun := 0 } : TunerMock) = { bufSize := 100, xrun := 0 }) ∧
    ((false : Bool) = false →
      tunerSetFailOps.getState { bufSize := 100, xrun := 0 } = AAUDIO_STREAM_STATE_STARTED →
      tunerSetFailOps.getBufferSizeInFrames { bufSize := 100, xrun := 0 } =
        tunerSetFailOps.getBufferSizeInFrames { bufSize := 100, xrun := 0 }) :=
  tuner_failure_cases tunerSetFailOps (fun _ _ => rfl) 5 { bufSize := 100, xrun := 0 }
    false { bufSize := 100, xrun := 0 } (by decide)

/-- C3: Whenever the tuning loop exits because the re-read effective buffer
size is unchanged from the previous round (`sizeStuck`) or because the
underrun count did not increase after a successful write (`noNewXRun`),
`TunePlayerForLowLatency` returns `true` and leaves the stream exactly as the
loop left it — no restore of the original size happens. -/
theorem tuner_success_cases {σ : Type} (ops : StreamOps σ) (fuel : Nat) (s : σ)
    (ex : TuneExit) (t : σ)
    (hstarted : ops.getState s = AAUDIO_STREAM_STATE_STARTED)
    (hloop : tuneLoop ops (ops.getBufferCapacityInFrames s) (ops.getFramesPerBurst s) fuel
        (ops.getFramesPerBurst s) 0 (ops.getXRunCount s) s = some (ex, t))
    (hex : ex = TuneExit.sizeStuck ∨ ex = TuneExit.noNewXRun) :
    TunePlayerForLowLatency ops fuel s = some (true, t) := by
  rcases hex with hx | hx <;> subst hx <;>
    simp [TunePlayerForLowLatency, hstarted, hloop, tuneTrainingError]

/-- Witness for C3: starting the concrete scenario with five past underruns,
the loop exits with `noNewXRun` at size 256 and the tuner returns `true`. -/
theorem tuner_success_cases_witness :
    TunePlayerForLowLatency tunerScenarioOps 32 { bufSize := 0, xrun := 5 } =
      some (true, { bufSize := 256, xrun := 8 }) :=
  tuner_success_cases tunerScenarioOps 32 { bufSize := 0, xrun := 5 } TuneExit.noNewXRun
    { bufSize := 256, xrun := 8 } rfl (by decide) (Or.inr rfl)

/-! ## Helper lemmas about the validator's building blocks -/

/-- Every event the retry wait loop emits is a wait with the loop's phase,
its fixed `fromState`, and the timeout `waitTimeoutNanos`. -/
theorem waitLoop_events {σ : Type} (ops : ValStreamOps σ) (phase : WaitPhase) (fromState : Int) :
    ∀ (fuel : Nat) (s : σ) (st ns : Int) (t : σ) (evs : List StreamEvent),
      waitLoop ops phase fromState fuel s = some (st, ns, t, evs) →
      ∀ e ∈ evs, ∃ a b, e = StreamEvent.waitCall phase fromState waitTimeoutNanos a b := by
  intro fuel
  induction fuel with
  | zero => intro s st ns t evs h; simp [waitLoop] at h
  | succ n ih =>
    intro s st ns t evs h
    rw [waitLoop] at h
    split at h
    · cases hrec : waitLoop ops phase fromState n
          ((ops.waitForStateChange s fromState waitTimeoutNanos).2) with
      | none => rw [hrec] at h; simp at h
      | some p =>
        obtain ⟨st2, ns2, t2, evs2⟩ := p
        rw [hrec] at h
        simp only [Option.some.injEq, Prod.mk.injEq] at h
        obtain ⟨h1, h2, h3, h4⟩ := h
        subst h4
        intro e he
        rcases List.mem_cons.mp he with he | he
        · exact ⟨_, _, he⟩
        · exact ih _ _ _ _ _ hrec e he
    · simp only [Option.some.injEq, Prod.mk.injEq] at h
      obtain ⟨h1, h2, h3, h4⟩ := h
      subst h4
      intro e he
      rcases List.mem_singleton.mp he with rfl
      exact ⟨_, _, rfl⟩

/-- `CheckState` emits no action event, no leave-previous-state wait, and
every wait it emits carries the timeout `waitTimeoutNanos`. -/
theorem CheckState_events {σ : Type} (ops : ValStreamOps σ) (fuel : Nat) (state : Int) (s : σ)
    (res : Bool) (t : σ) (evs : List StreamEvent)
    (h : CheckState ops fuel state s = some (res, t, evs)) :
    ∀ e ∈ evs, e.isAction = false ∧ e.leaveWaitFrom = none ∧
      ∀ T, e.waitTimeout = some T → T = waitTimeoutNanos := by
  rw [CheckState] at h
  split at h
  · simp only [Option.some.injEq, Prod.mk.injEq] at h
    obtain ⟨h1, h2, h3⟩ := h
    subst h3
    intro e he
    rcases List.mem_singleton.mp he with rfl
    exact ⟨rfl, rfl, by intro T hT; cases hT⟩
  · split at h
    · simp only [Option.some.injEq, Prod.mk.injEq] at h
      obtain ⟨h1, h2, h3⟩ := h
      subst h3
      intro e he
      rcases List.mem_singleton.mp he with rfl
      exact ⟨rfl, rfl, by intro T hT; cases hT⟩
    · split at h
      · simp only [Option.some.injEq, Prod.mk.injEq] at h
        obtain ⟨h1, h2, h3⟩ := h
        subst h3
        intro e he
        simp only [List.mem_cons, List.mem_singleton] at he
        rcases he with rfl | rfl | (rfl | he)
        · exact ⟨rfl, rfl, by intro T hT; cases hT⟩
        · exact ⟨rfl, rfl, by intro T hT; cases hT⟩
        · exact ⟨rfl, rfl, by intro T hT; cases hT⟩
        · cases he
      · cases hw : waitLoop ops WaitPhase.checkState ((ops.getState s).1) fuel
            ((ops.getState s).2) with
        | none => rw [hw] at h; simp at h
        | some p =>
          obtain ⟨st2, ns2, t2, evs2⟩ := p
          rw [hw] at h
          simp only [Option.some.injEq, Prod.mk.injEq] at h
          obtain ⟨h1, h2, h3⟩ := h
          subst h3
          intro e he
          simp only [List.mem_cons, List.mem_append, List.mem_singleton] at he
          rcases he with (rfl | he) | (rfl | he2)
          · exact ⟨rfl, rfl, by intro T hT; cases hT⟩
          · obtain ⟨a, b, rfl⟩ :=
              waitLoop_events ops WaitPhase.checkState _ fuel _ _ _ _ _ hw e he
            exact ⟨rfl, rfl, by intro T hT; cases hT with | refl => rfl⟩
          · exact ⟨rfl, rfl, by intro T hT; cases hT⟩
          · cases he2

/-- The action part of a step emits only action-call events. -/
theorem stepAction_shape {σ : Type} (ops : ValStreamOps σ) (oa : Option StreamAction) (s : σ) :
    ∀ e ∈ (stepAction ops oa s).1, ∃ a st, e = StreamEvent.actionCall a st := by
  cases oa with
  | none => intro e he; cases he
  | some act =>
    intro e he
    simp only [stepAction] at he
    rcases List.mem_singleton.mp he with rfl
    exact ⟨act, _, rfl⟩

/-- The action part of a step emits exactly one action call when the row has
an action and none otherwise. -/
theorem stepAction_countP {σ : Type} (ops : ValStreamOps σ) (oa : Option StreamAction) (s : σ) :
    ((stepAction ops oa s).1).countP (fun e => e.isAction) =
      if oa.isSome then 1 else 0 := by
  cases oa <;> rfl

/-- The terminal CLOSED row is recorded as passed unconditionally: its step
runs the close action and nothing else — no state query, no wait, no sleep. -/
theorem runStep_close {σ : Type} (ops : ValStreamOps σ) (fuel idx : Nat) (s : σ) :
    runStep ops fuel idx ⟨some StreamAction.close, AAUDIO_STREAM_STATE_CLOSED⟩ s =
      some (true, (ops.close s).2,
        [StreamEvent.actionCall StreamAction.close (ops.close s).1]) := by
  simp [runStep, stepAction, runAction]

/-- Per-step trace facts: every wait a step emits uses `waitTimeoutNanos`;
every leave-previous-state wait uses `inputState = row.state - 1`; and the
step invokes the row's action exactly once (zero times when there is none). -/
theorem runStep_events {σ : Type} (ops : ValStreamOps σ) (fuel idx : Nat)
    (info : ValidationStateInfo) (s : σ) (res : Bool) (t : σ) (evs : List StreamEvent)
    (h : runStep ops fuel idx info s = some (res, t, evs)) :
    (∀ e ∈ evs, ∀ T, e.waitTimeout = some T → T = waitTimeoutNanos) ∧
    (∀ e ∈ evs, ∀ f, e.leaveWaitFrom = some f → f = info.state - 1) ∧
    (evs.countP (fun e => e.isAction) = if info.action.isSome then 1 else 0) := by
  have hact := stepAction_shape ops info.action s
  rw [runStep] at h
  split at h
  · simp only [Option.some.injEq, Prod.mk.injEq] at h
    obtain ⟨h1, h2, h3⟩ := h
    subst h3
    refine ⟨?_, ?_, stepAction_countP ops info.action s⟩
    · intro e he T hT
      obtain ⟨a, st, rfl⟩ := hact e he
      cases hT
    · intro e he f hf
      obtain ⟨a, st, rfl⟩ := hact e he
      cases hf
  · split at h
    · simp only at h
      cases hc : CheckState ops fuel info.state ((stepAction ops info.action s).2) with
      | none => rw [hc] at h; simp at h
      | some c =>
        obtain ⟨cres, cs, cevs⟩ := c
        rw [hc] at h
        simp only [Option.some.injEq, Prod.mk.injEq] at h
        obtain ⟨h1, h2, h3⟩ := h
        subst h3
        have hcheck := CheckState_events ops fuel info.state _ _ _ _ hc
        constructor
        · intro e he T hT
          rcases List.mem_append.mp he with he | he
          · rcases List.mem_append.mp he with he | he
            · obtain ⟨a, st, rfl⟩ := hact e he
              cases hT
            · cases he
          · exact (hcheck e he).2.2 T hT
        constructor
        · intro e he f hf
          rcases List.mem_append.mp he with he | he
          · rcases List.mem_append.mp he with he | he
            · obtain ⟨a, st, rfl⟩ := hact e he
              cases hf
            · cases he
          · rw [(hcheck e he).2.1] at hf
            cases hf
        · rw [List.countP_append, List.countP_append, stepAction_countP]
          have hz : cevs.countP (fun e => e.isAction) = 0 :=
            List.countP_eq_zero.mpr fun e he => by
              simp [(hcheck e he).1]
          simp [hz]
    · simp only at h
      cases hw : waitLoop ops WaitPhase.leavePrev (info.state - 1) fuel
          ((stepAction ops info.action s).2) with
      | none => rw [hw] at h; simp at h
      | some w =>
        obtain ⟨wst, wns, wt, wevs⟩ := w
        rw [hw] at h
        simp only at h
        cases hc : CheckState ops fuel info.state wt with
        | none => rw [hc] at h; simp at h
        | some c =>
          obtain ⟨cres, cs, cevs⟩ := c
          rw [hc] at h
          simp only [Option.some.injEq, Prod.mk.injEq] at h
          obtain ⟨h1, h2, h3⟩ := h
          subst h3
          have hcheck := CheckState_events ops fuel info.state _ _ _ _ hc
          have hwait := waitLoop_events ops WaitPhase.leavePrev (info.state - 1) fuel _ _ _ _ _ hw
          constructor
          · intro e he T hT
            rcases List.mem_append.mp he with he | he
            · rcases List.mem_append.mp he with he | he
              · obtain ⟨a, st, rfl⟩ := hact e he
                cases hT
              · obtain ⟨a, b, rfl⟩ := hwait e he
                cases hT with | refl => rfl
            · exact (hcheck e he).2.2 T hT
          constructor
          · intro e he f hf
            rcases List.mem_append.mp he with he | he
            · rcases List.mem_append.mp he with he | he
              · obtain ⟨a, st, rfl⟩ := hact e he
                cases hf
              · obtain ⟨a, b, rfl⟩ := hwait e he
                cases hf with | refl => rfl
            · rw [(hcheck e he).2.1] at hf
              cases hf
          · rw [List.countP_append, List.countP_append, stepAction_countP]
            have hz1 : wevs.countP (fun e => e.isAction) = 0 :=
              List.countP_eq_zero.mpr fun e he => by
                obtain ⟨a, b, rfl⟩ := hwait e he
                simp [StreamEvent.isAction]
            have hz2 : cevs.countP (fun e => e.isAction) = 0 :=
              List.countP_eq_zero.mpr fun e he => by
                simp [(hcheck e he).1]
            simp [hz1, hz2]

/-- Inversion of `runSteps` on the empty table. -/
theorem runSteps_nil_inv {σ : Type} (ops : ValStreamOps σ) (fuel idx : Nat) (s : σ)
    (out : List Bool × σ × List (List StreamEvent))
    (h : runSteps ops fuel idx [] s = some out) : out = ([], s, []) := by
  rw [runSteps] at h
  simp only [Option.some.injEq] at h
  exact h.symm

/-- Inversion of `runSteps` on a non-empty table. -/
theorem runSteps_cons_inv {σ : Type} (ops : ValStreamOps σ) (fuel idx : Nat)
    (info : ValidationStateInfo) (rest : List ValidationStateInfo) (s : σ)
    (out : List Bool × σ × List (List StreamEvent))
    (h : runSteps ops fuel idx (info :: rest) s = some out) :
    ∃ r s1 evs results2 t2 traces2,
      runStep ops fuel idx info s = some (r, s1, evs) ∧
      runSteps ops fuel (idx + 1) rest s1 = some (results2, t2, traces2) ∧
      out = (r :: results2, t2, evs :: traces2) := by
  rw [runSteps] at h
  cases h1 : runStep ops fuel idx info s with
  | none => rw [h1] at h; simp at h
  | some v =>
    obtain ⟨r, s1, evs⟩ := v
    rw [h1] at h
    simp only [Option.some.injEq] at h
    cases h2 : runSteps ops fuel (idx + 1) rest s1 with
    | none => rw [h2] at h; simp at h
    | some w =>
      obtain ⟨results2, t2, traces2⟩ := w
      rw [h2] at h
      simp only [Option.some.injEq] at h
      exact ⟨r, s1, evs, results2, t2, traces2, rfl, h2, h.symm⟩

/-- Shape of any completed `ValidateStreamStateMachine` run: seven per-step
results whose last is `true`, seven traces whose last is exactly the close
action call, the final behaviour state is the close call's, the overall
verdict is the fold of the per-step results, and each of the first six steps
is a `runStep` on the matching table row with the threaded stream state. -/
theorem validator_run_cases {σ : Type} (ops : ValStreamOps σ) (fuel : Nat) (s : σ)
    (passed : Bool) (results : List Bool) (t : σ) (traces : List (List StreamEvent))
    (h : ValidateStreamStateMachine ops fuel s = some (passed, results, t, traces)) :
    ∃ (r0 r1 r2 r3 r4 r5 : Bool) (e0 e1 e2 e3 e4 e5 : List StreamEvent)
      (s0 s1 s2 s3 s4 s5 : σ),
      results = [r0, r1, r2, r3, r4, r5, true] ∧
      traces = [e0, e1, e2, e3, e4, e5,
        [StreamEvent.actionCall StreamAction.close (ops.close s5).1]] ∧
      t = (ops.close s5).2 ∧
      passed = results.foldl (fun p r => p && r) true ∧
      runStep ops fuel 0 ⟨none, AAUDIO_STREAM_STATE_OPEN⟩ s = some (r0, s0, e0) ∧
      runStep ops fuel 1 ⟨some StreamAction.start, AAUDIO_STREAM_STATE_STARTED⟩ s0 =
        some (r1, s1, e1) ∧
      runStep ops fuel 2 ⟨some StreamAction.pause, AAUDIO_STREAM_STATE_PAUSED⟩ s1 =
        some (r2, s2, e2) ∧
      runStep ops fuel 3 ⟨some StreamAction.flush, AAUDIO_STREAM_STATE_FLUSHED⟩ s2 =
        some (r3, s3, e3) ∧
      runStep ops fuel 4 ⟨some StreamAction.start, AAUDIO_STREAM_STATE_STARTED⟩ s3 =
        some (r4, s4, e4) ∧
      runStep ops fuel 5 ⟨some StreamAction.stop, AAUDIO_STREAM_STATE_STOPPED⟩ s4 =
        some (r5, s5, e5) := by
  rw [ValidateStreamStateMachine] at h
  cases hr : runSteps ops fuel 0 stateMachine s with
  | none => rw [hr] at h; simp at h
  | some w =>
    obtain ⟨results1, t1, traces1⟩ := w
    rw [hr] at h
    simp only [Option.some.injEq, Prod.mk.injEq] at h
    obtain ⟨hp, hres, ht, htr⟩ := h
    simp only [stateMachine] at hr
    obtain ⟨r0, s0, e0, res1, u1, tr1, h0, hr1, ho1⟩ := runSteps_cons_inv _ _ _ _ _ _ _ hr
    obtain ⟨r1, s1, e1, res2, u2, tr2, h1, hr2, ho2⟩ := runSteps_cons_inv _ _ _ _ _ _ _ hr1
    obtain ⟨r2, s2, e2, res3, u3, tr3, h2, hr3, ho3⟩ := runSteps_cons_inv _ _ _ _ _ _ _ hr2
    obtain ⟨r3, s3, e3, res4, u4, tr4, h3, hr4, ho4⟩ := runSteps_cons_inv _ _ _ _ _ _ _ hr3
    obtain ⟨r4, s4, e4, res5, u5, tr5, h4, hr5, ho5⟩ := runSteps_cons_inv _ _ _ _ _ _ _ hr4
    obtain ⟨r5, s5, e5, res6, u6, tr6, h5, hr6, ho6⟩ := runSteps_cons_inv _ _ _ _ _ _ _ hr5
    obtain ⟨r6, s6, e6, res7, u7, tr7, h6, hr7, ho7⟩ := runSteps_cons_inv _ _ _ _ _ _ _ hr6
    have hnil := runSteps_nil_inv _ _ _ _ _ hr7
    rw [runStep_close] at h6
    simp only [Option.some.injEq, Prod.mk.injEq] at h6
    obtain ⟨hc1, hc2, hc3⟩ := h6
    simp only [Prod.mk.injEq] at hnil
    obtain ⟨hn1, hn2, hn3⟩ := hnil
    simp only [Prod.mk.injEq] at ho7 ho6 ho5 ho4 ho3 ho2 ho1
    obtain ⟨ho7a, ho7b, ho7c⟩ := ho7
    obtain ⟨ho6a, ho6b, ho6c⟩ := ho6
    obtain ⟨ho5a, ho5b, ho5c⟩ := ho5
    obtain ⟨ho4a, ho4b, ho4c⟩ := ho4
    obtain ⟨ho3a, ho3b, ho3c⟩ := ho3
    obtain ⟨ho2a, ho2b, ho2c⟩ := ho2
    obtain ⟨ho1a, ho1b, ho1c⟩ := ho1
    refine ⟨r0, r1, r2, r3, r4, r5, e0, e1, e2, e3, e4, e5, s0, s1, s2, s3, s4, s5,
      ?_, ?_, ?_, ?_, h0, h1, h2, h3, h4, h5⟩
    · rw [← hres, ho1a, ho2a, ho3a, ho4a, ho5a, ho6a, ho7a, hn1, ← hc1]
    · rw [← htr, ho1c, ho2c, ho3c, ho4c, ho5c, ho6c, ho7c, hn3, ← hc3]
    · rw [← ht, ho1b, ho2b, ho3b, ho4b, ho5b, ho6b, ho7b, hn2, ← hc2]
    · rw [← hp, ← hres]

/-- Folding `&&` over a list of booleans yields `true` exactly when the seed
and every element are `true`. -/
theorem foldl_and_eq_true (l : List Bool) (b : Bool) :
    (l.foldl (fun p r => p && r) b = true) ↔ (b = true ∧ ∀ r ∈ l, r = true) := by
  induction l generalizing b with
  | nil => simp
  | cons x xs ih =>
    simp only [List.foldl_cons, ih, Bool.and_eq_true, List.mem_cons]
    constructor
    · rintro ⟨⟨hb, hx⟩, hxs⟩
      exact ⟨hb, fun r hr => by rcases hr with rfl | hr; exact hx; exact hxs r hr⟩
    · rintro ⟨hb, hall⟩
      exact ⟨⟨hb, hall x (Or.inl rfl)⟩, fun r hr => hall r (Or.inr hr)⟩

/-! ## Theorems: state-sequence validator -/

/-- C5: The overall boolean `ValidateStreamStateMachine` returns is the
`&&`-fold of the seven per-step results, and it is `true` exactly when every
recorded per-step result is `true`. -/
theorem validator_overall_conjunction {σ : Type} (ops : ValStreamOps σ) (fuel : Nat) (s : σ)
    (passed : Bool) (results : List Bool) (t : σ) (traces : List (List StreamEvent))
    (h : ValidateStreamStateMachine ops fuel s = some (passed, results, t, traces)) :
    passed = results.foldl (fun p r => p && r) true ∧
    results.length = 7 ∧
    (passed = true ↔ ∀ b ∈ results, b = true) := by
  obtain ⟨r0, r1, r2, r3, r4, r5, e0, e1, e2, e3, e4, e5, s0, s1, s2, s3, s4, s5,
    hres, htr, ht, hp, h0, h1, h2, h3, h4, h5⟩ := validator_run_cases ops fuel s _ _ _ _ h
  subst hres
  refine ⟨hp, rfl, ?_⟩
  rw [hp, foldl_and_eq_true]
  simp

/-- Witness for C5: the perfect-mock run, where every step passes and the
fold of seven `true`s is `true`. -/
theorem validator_overall_conjunction_witness :
    ((true : Bool) = [true, true, true, true, true, true, true].foldl (fun p r => p && r) true) ∧
    ([true, true, true, true, true, true, true] : List Bool).length = 7 ∧
    ((true : Bool) = true ↔ ∀ b ∈ [true, true, true, true, true, true, true], b = true) :=
  validator_overall_conjunction perfectMock 3 AAUDIO_STREAM_STATE_OPEN true
    [true, true, true, true, true, true, true] AAUDIO_STREAM_STATE_CLOSED perfectTraces
    (by decide)

/-- C4: In every completed `ValidateStreamStateMachine` run, whatever the
stream behaviour, the terminal CLOSED step's recorded result is `true`, and
its trace consists of exactly the close action call — no state query, no
wait, no sleep is performed for that step. -/
theorem validator_closed_step {σ : Type} (ops : ValStreamOps σ) (fuel : Nat) (s : σ)
    (passed : Bool) (results : List Bool) (t : σ) (traces : List (List StreamEvent))
    (h : ValidateStreamStateMachine ops fuel s = some (passed, results, t, traces)) :
    results.length = 7 ∧ results.getD 6 false = true ∧
    ∃ st, traces.getD 6 [] = [StreamEvent.actionCall StreamAction.close st] := by
  obtain ⟨r0, r1, r2, r3, r4, r5, e0, e1, e2, e3, e4, e5, s0, s1, s2, s3, s4, s5,
    hres, htr, ht, hp, h0, h1, h2, h3, h4, h5⟩ := validator_run_cases ops fuel s _ _ _ _ h
  subst hres; subst htr
  exact ⟨rfl, rfl, (ops.close s5).1, rfl⟩

/-- Witness for C4 at the perfect-mock run. -/
theorem validator_closed_step_witness :
    ([true, true, true, true, true, true, true] : List Bool).length = 7 ∧
    ([true, true, true, true, true, true, true] : List Bool).getD 6 false = true ∧
    ∃ st, perfectTraces.getD 6 [] = [StreamEvent.actionCall StreamAction.close st] :=
  validator_closed_step perfectMock 3 AAUDIO_STREAM_STATE_OPEN true
    [true, true, true, true, true, true, true] AAUDIO_STREAM_STATE_CLOSED perfectTraces
    (by decide)

/-- C6 counterexample: at step 1 (target STARTED) of a concrete run, the
leave-previous-state wait is invoked with `inputState = STARTING` (the
current target's numeric predecessor), whereas the previous step's expected
state is OPEN — and STARTING ≠ OPEN.  So the claim that the wait's from-state
equals the previous step's expected state fails on the code. -/
theorem validator_wait_from_prev_counterexample :
    (ValidateStreamStateMachine perfectMock 3 AAUDIO_STREAM_STATE_OPEN).map
        (fun out => (out.2.2.2.getD 1 []).filterMap StreamEvent.leaveWaitFrom) =
      some [AAUDIO_STREAM_STATE_STARTING] ∧
    (stateMachine.getD 0 ⟨none, AAUDIO_STREAM_STATE_UNINITIALIZED⟩).state =
      AAUDIO_STREAM_STATE_OPEN ∧
    AAUDIO_STREAM_STATE_STARTING ≠ AAUDIO_STREAM_STATE_OPEN := by
  refine ⟨by decide, by decide, by decide⟩

/-- C6 (amended): every leave-previous-state wait the validator issues during
step `idx` passes `inputState = stateMachine[idx].state - 1`, the numeric
predecessor (transient precursor) of the current step's expected state — not
the previous step's expected state. -/
theorem validator_leave_wait_from_transient {σ : Type} (ops : ValStreamOps σ) (fuel : Nat)
    (s : σ) (passed : Bool) (results : List Bool) (t : σ) (traces : List (List StreamEvent))
    (h : ValidateStreamStateMachine ops fuel s = some (passed, results, t, traces))
    (idx : Nat) (e : StreamEvent) (he : e ∈ traces.getD idx []) (f : Int)
    (hf : e.leaveWaitFrom = some f) :
    f = (stateMachine.getD idx ⟨none, AAUDIO_STREAM_STATE_UNINITIALIZED⟩).state - 1 := by
  obtain ⟨r0, r1, r2, r3, r4, r5, e0, e1, e2, e3, e4, e5, s0, s1, s2, s3, s4, s5,
    hres, htr, ht, hp, h0, h1, h2, h3, h4, h5⟩ := validator_run_cases ops fuel s _ _ _ _ h
  subst htr
  rcases idx with _ | _ | _ | _ | _ | _ | _ | n
  · exact (runStep_events _ _ _ _ _ _ _ _ h0).2.1 e he f hf
  · exact (runStep_events _ _ _ _ _ _ _ _ h1).2.1 e he f hf
  · exact (runStep_events _ _ _ _ _ _ _ _ h2).2.1 e he f hf
  · exact (runStep_events _ _ _ _ _ _ _ _ h3).2.1 e he f hf
  · exact (runStep_events _ _ _ _ _ _ _ _ h4).2.1 e he f hf
  · exact (runStep_events _ _ _ _ _ _ _ _ h5).2.1 e he f hf
  · simp only [List.getD] at he
    rcases List.mem_singleton.mp he with rfl
    cases hf
  · cases he

/-- Witness for the amended C6 at the perfect-mock run's step 1: the recorded
wait's from-state STARTING equals STARTED − 1. -/
theorem validator_leave_wait_from_transient_witness :
    AAUDIO_STREAM_STATE_STARTING =
      (stateMachine.getD 1 ⟨none, AAUDIO_STREAM_STATE_UNINITIALIZED⟩).state - 1 :=
  validator_leave_wait_from_transient perfectMock 3 AAUDIO_STREAM_STATE_OPEN true
    [true, true, true, true, true, true, true] AAUDIO_STREAM_STATE_CLOSED perfectTraces
    (by decide) 1 (StreamEvent.waitCall WaitPhase.leavePrev 3 10000000000 0 4) (by decide)
    AAUDIO_STREAM_STATE_STARTING (by decide)

/-- C7: every wait-for-state-change attempt recorded in any step's trace of a
completed `ValidateStreamStateMachine` run — both retry loops — is given the
timeout `WAITING_TIME_IN_SECOND * 10^9 + WAITING_TIME_IN_MS * 10^6`
nanoseconds. -/
theorem validator_wait_timeout {σ : Type} (ops : ValStreamOps σ) (fuel : Nat)
    (s : σ) (passed : Bool) (results : List Bool) (t : σ) (traces : List (List StreamEvent))
    (h : ValidateStreamStateMachine ops fuel s = some (passed, results, t, traces))
    (tr : List StreamEvent) (htr2 : tr ∈ traces) (e : StreamEvent) (he : e ∈ tr)
    (T : Int) (hT : e.waitTimeout = some T) :
    T = WAITING_TIME_IN_SECOND * 1000000000 + WAITING_TIME_IN_MS * 1000000 := by
  have hval : waitTimeoutNanos =
      WAITING_TIME_IN_SECOND * 1000000000 + WAITING_TIME_IN_MS * 1000000 := by decide
  obtain ⟨r0, r1, r2, r3, r4, r5, e0, e1, e2, e3, e4, e5, s0, s1, s2, s3, s4, s5,
    hres, htr, ht, hp, h0, h1, h2, h3, h4, h5⟩ := validator_run_cases ops fuel s _ _ _ _ h
  subst htr
  rw [← hval]
  simp only [List.mem_cons, List.mem_singleton] at htr2
  rcases htr2 with rfl | rfl | rfl | rfl | rfl | rfl | rfl | htr2
  · exact (runStep_events _ _ _ _ _ _ _ _ h0).1 e he T hT
  · exact (runStep_events _ _ _ _ _ _ _ _ h1).1 e he T hT
  · exact (runStep_events _ _ _ _ _ _ _ _ h2).1 e he T hT
  · exact (runStep_events _ _ _ _ _ _ _ _ h3).1 e he T hT
  · exact (runStep_events _ _ _ _ _ _ _ _ h4).1 e he T hT
  · exact (runStep_events _ _ _ _ _ _ _ _ h5).1 e he T hT
  · rcases List.mem_singleton.mp he with rfl
    cases hT
  · cases htr2

/-- Witness for C7 at the perfect-mock run's step-1 wait: its recorded
timeout 10'000'000'000 ns equals 10 * 10^9 + 0 * 10^6. -/
theorem validator_wait_timeout_witness :
    (10000000000 : Int) = WAITING_TIME_IN_SECOND * 1000000000 + WAITING_TIME_IN_MS * 1000000 :=
  validator_wait_timeout perfectMock 3 AAUDIO_STREAM_STATE_OPEN true
    [true, true, true, true, true, true, true] AAUDIO_STREAM_STATE_CLOSED perfectTraces
    (by decide)
    [StreamEvent.actionCall StreamAction.start 0,
     StreamEvent.waitCall WaitPhase.leavePrev 3 10000000000 0 4,
     StreamEvent.getStateCall 4] (by decide)
    (StreamEvent.waitCall WaitPhase.leavePrev 3 10000000000 0 4) (by decide)
    10000000000 (by decide)

/-- The retry wait loop is identical for two behaviours with the same
`waitForStateChange`. -/
theorem waitLoop_congr {σ : Type} (A B : ValStreamOps σ)
    (hw : A.waitForStateChange = B.waitForStateChange) (phase : WaitPhase) (fromState : Int) :
    ∀ (fuel : Nat) (s : σ),
      waitLoop A phase fromState fuel s = waitLoop B phase fromState fuel s := by
  intro fuel
  induction fuel with
  | zero => intro s; rfl
  | succ n ih => intro s; simp only [waitLoop, hw, ih]

/-- `CheckState` is identical for two behaviours with the same `getState` and
`waitForStateChange`. -/
theorem CheckState_congr {σ : Type} (A B : ValStreamOps σ)
    (hg : A.getState = B.getState) (hw : A.waitForStateChange = B.waitForStateChange)
    (fuel : Nat) (state : Int) (s : σ) :
    CheckState A fuel state s = CheckState B fuel state s := by
  simp only [CheckState, hg, waitLoop_congr A B hw]

/-- A step's result and post-state do not depend on the statuses the actions
return: only the recorded trace can differ. -/
theorem runStep_congr {σ : Type} (A B : ValStreamOps σ) (hAB : actionsAgreeOnState A B)
    (fuel idx : Nat) (info : ValidationStateInfo) (s : σ) :
    (runStep A fuel idx info s).map (fun r => (r.1, r.2.1)) =
    (runStep B fuel idx info s).map (fun r => (r.1, r.2.1)) := by
  obtain ⟨hg, hw, ha⟩ := hAB
  obtain ⟨oact, stt⟩ := info
  cases oact with
  | none =>
    have hfull : runStep A fuel idx ⟨none, stt⟩ s = runStep B fuel idx ⟨none, stt⟩ s := by
      simp only [runStep, stepAction, CheckState_congr A B hg hw, waitLoop_congr A B hw]
    rw [hfull]
  | some act =>
    rw [runStep, runStep]
    simp only [stepAction, CheckState_congr A B hg hw, waitLoop_congr A B hw, ha act s]
    split
    · simp
    · split
      · rfl
      · split
        · rfl
        · simp

/-- `runSteps` congruence: statuses of actions never influence the per-step
results or the threaded stream state. -/
theorem runSteps_congr {σ : Type} (A B : ValStreamOps σ) (hAB : actionsAgreeOnState A B)
    (fuel : Nat) :
    ∀ (l : List ValidationStateInfo) (idx : Nat) (s : σ),
      (runSteps A fuel idx l s).map (fun r => (r.1, r.2.1)) =
      (runSteps B fuel idx l s).map (fun r => (r.1, r.2.1)) := by
  intro l
  induction l with
  | nil => intro idx s; rfl
  | cons info rest ih =>
    intro idx s
    have hstep := runStep_congr A B hAB fuel idx info s
    rw [runSteps, runSteps]
    cases hA : runStep A fuel idx info s with
    | none =>
      cases hB : runStep B fuel idx info s with
      | some vB => rw [hA, hB] at hstep; simp at hstep
      | none => rfl
    | some vA =>
      obtain ⟨rA, sA, evA⟩ := vA
      cases hB : runStep B fuel idx info s with
      | none => rw [hA, hB] at hstep; simp at hstep
      | some vB =>
        obtain ⟨rB, sB, evB⟩ := vB
        rw [hA, hB] at hstep
        simp at hstep
        obtain ⟨hr, hs⟩ := hstep
        subst hr; subst hs
        dsimp only
        have htail := ih (idx + 1) sA
        cases hTA : runSteps A fuel (idx + 1) rest sA with
        | none =>
          cases hTB : runSteps B fuel (idx + 1) rest sA with
          | some wB => rw [hTA, hTB] at htail; simp at htail
          | none => rfl
        | some wA =>
          obtain ⟨resA2, tA2, trA2⟩ := wA
          cases hTB : runSteps B fuel (idx + 1) rest sA with
          | none => rw [hTA, hTB] at htail; simp at htail
          | some wB =>
            obtain ⟨resB2, tB2, trB2⟩ := wB
            rw [hTA, hTB] at htail
            simp at htail
            obtain ⟨hres2, ht2⟩ := htail
            subst hres2; subst ht2
            rfl

/-- Full-run congruence: the overall verdict, the per-step results and the
final stream state are the same for two behaviours that differ only in the
statuses their actions return. -/
theorem ValidateStreamStateMachine_congr {σ : Type} (A B : ValStreamOps σ)
    (hAB : actionsAgreeOnState A B) (fuel : Nat) (s : σ) :
    (ValidateStreamStateMachine A fuel s).map (fun out => (out.1, out.2.1, out.2.2.1)) =
    (ValidateStreamStateMachine B fuel s).map (fun out => (out.1, out.2.1, out.2.2.1)) := by
  have h := runSteps_congr A B hAB fuel stateMachine 0 s
  rw [ValidateStreamStateMachine, ValidateStreamStateMachine]
  cases hA : runSteps A fuel 0 stateMachine s with
  | none =>
    cases hB : runSteps B fuel 0 stateMachine s with
    | some wB => rw [hA, hB] at h; simp at h
    | none => rfl
  | some wA =>
    obtain ⟨resA, tA, trA⟩ := wA
    cases hB : runSteps B fuel 0 stateMachine s with
    | none => rw [hA, hB] at h; simp at h
    | some wB =>
      obtain ⟨resB, tB, trB⟩ := wB
      rw [hA, hB] at h
      simp at h
      obtain ⟨h1, h2⟩ := h
      subst h1; subst h2
      rfl

/-- C8: Action failures are non-fatal and never branched on: a behaviour
whose actions return failure statuses but move the stream identically yields
the same verdict, the same per-step results and the same final stream state;
moreover every completed run executes all seven steps, invoking each row's
action exactly once (no retry) and running no action where the row has
none. -/
theorem validator_action_failures_nonfatal {σ : Type} (A B : ValStreamOps σ)
    (hAB : actionsAgreeOnState A B) (fuel : Nat) (s : σ) :
    ((ValidateStreamStateMachine A fuel s).map (fun out => (out.1, out.2.1, out.2.2.1)) =
      (ValidateStreamStateMachine B fuel s).map (fun out => (out.1, out.2.1, out.2.2.1))) ∧
    ∀ passed results t traces,
      ValidateStreamStateMachine A fuel s = some (passed, results, t, traces) →
      results.length = 7 ∧
      ∀ idx : Nat, (traces.getD idx []).countP (fun e => e.isAction) =
        if (stateMachine.getD idx ⟨none, AAUDIO_STREAM_STATE_UNINITIALIZED⟩).action.isSome
        then 1 else 0 := by
  refine ⟨ValidateStreamStateMachine_congr A B hAB fuel s, ?_⟩
  intro passed results t traces h
  obtain ⟨r0, r1, r2, r3, r4, r5, e0, e1, e2, e3, e4, e5, s0, s1, s2, s3, s4, s5,
    hres, htr, ht, hp, h0, h1, h2, h3, h4, h5⟩ := validator_run_cases A fuel s _ _ _ _ h
  subst hres; subst htr
  refine ⟨rfl, ?_⟩
  intro idx
  rcases idx with _ | _ | _ | _ | _ | _ | _ | n
  · exact (runStep_events _ _ _ _ _ _ _ _ h0).2.2
  · exact (runStep_events _ _ _ _ _ _ _ _ h1).2.2
  · exact (runStep_events _ _ _ _ _ _ _ _ h2).2.2
  · exact (runStep_events _ _ _ _ _ _ _ _ h3).2.2
  · exact (runStep_events _ _ _ _ _ _ _ _ h4).2.2
  · exact (runStep_events _ _ _ _ _ _ _ _ h5).2.2
  · rfl
  · rfl

/-- Witness for C8: `perfectMock` against `failingActionsMock`, which fails
every action with status −1 but moves the stream identically. -/
theorem validator_action_failures_nonfatal_witness :
    (((ValidateStreamStateMachine perfectMock 3 AAUDIO_STREAM_STATE_OPEN).map
        (fun out => (out.1, out.2.1, out.2.2.1)) =
      (ValidateStreamStateMachine failingActionsMock 3 AAUDIO_STREAM_STATE_OPEN).map
        (fun out => (out.1, out.2.1, out.2.2.1))) ∧
    ∀ passed results t traces,
      ValidateStreamStateMachine perfectMock 3 AAUDIO_STREAM_STATE_OPEN =
        some (passed, results, t, traces) →
      results.length = 7 ∧
      ∀ idx : Nat, (traces.getD idx []).countP (fun e => e.isAction) =
        if (stateMachine.getD idx ⟨none, AAUDIO_STREAM_STATE_UNINITIALIZED⟩).action.isSome
        then 1 else 0) :=
  validator_action_failures_nonfatal perfectMock failingActionsMock
    ⟨rfl, rfl, fun a s => by cases a <;> rfl⟩ 3 AAUDIO_STREAM_STATE_OPEN

/-! ## Theorems: JNI entry points -/

/-- C9: The start entry point returns `JNI_FALSE` without launching a worker
thread and without changing the engine when the validation-in-progress flag
is set; when the flag is clear it sets the flag, launches the worker thread,
and returns `JNI_TRUE`. -/
theorem start_reentrancy_guard (e : AAudioEngine) :
    (e.validationInProgress = true → MainActivity_start e = (false, e, false)) ∧
    (e.validationInProgress = false →
      MainActivity_start e = (true, { e with validationInProgress := true }, true)) := by
  constructor <;> intro h <;> simp [MainActivity_start, h]

/-- Witness for C9 at both concrete engine states. -/
theorem start_reentrancy_guard_witness :
    (MainActivity_start { validationInProgress := true } =
      (false, { validationInProgress := true }, false)) ∧
    (MainActivity_start { validationInProgress := false } =
      (true, { validationInProgress := true }, true)) :=
  ⟨(start_reentrancy_guard ⟨true⟩).1 rfl, (start_reentrancy_guard ⟨false⟩).2 rfl⟩

/-- C10: `ValidateStreamStateMachine2` returns `true` for every behaviour and
every input: all failure paths jump to the closing exit and the function's
only return value is `true`. -/
theorem vssm2_always_true {σ : Type} (ops : ValStreamOps σ) (s : σ) :
    (ValidateStreamStateMachine2 ops s).1 = true := by
  rw [ValidateStreamStateMachine2]
  dsimp only
  split_ifs <;> rfl

end AAudioValidation
